import Mathlib

/-!
Shallow embedding of the therm-2 device-proxy and state-synchronization
engine (UnifiedComponentProxy.py, ServerDeviceProxy.py, State.py,
ControlLoop.py, ServerMQTTManager.py), with proofs of the specification
claims about it.  Python dicts are modelled as insertion-ordered
association lists, asyncio queues as lists, and each async call as a
function from an explicit transport environment to a result; a call that
can raise, return, or block forever returns a `CallResult`.
-/

namespace Therm

/-- Result of one Python call: it raises, returns a value, or blocks forever. -/
inductive CallResult (α : Type) : Type
  | raise (msg : String) : CallResult α
  | ret (a : α) : CallResult α
  | blocked : CallResult α
  deriving DecidableEq

/-! ## Association-list dictionaries (Python dict semantics) -/

/-- Lookup in an insertion-ordered association list (first binding wins). -/
def dlookup {β : Type} (k : String) : List (String × β) → Option β
  | [] => none
  | (k1, v) :: rest => if k1 = k then some v else dlookup k rest

/-- Python dict assignment d[k] = v: update in place if present, else append. -/
def dinsert {β : Type} (k : String) (v : β) : List (String × β) → List (String × β)
  | [] => [(k, v)]
  | (k1, v1) :: rest => if k1 = k then (k1, v) :: rest else (k1, v1) :: dinsert k v rest

/-- Python dict merge as in the idiom with a double-splat of a over b:
    start from a, then assign every binding of b in order. -/
def dmerge {β : Type} (a b : List (String × β)) : List (String × β) :=
  b.foldl (fun d kv => dinsert kv.1 kv.2 d) a

/-- Python == on two dicts: the key-to-value mappings agree extensionally. -/
def dictBeq {β : Type} [DecidableEq β] (a b : List (String × β)) : Bool :=
  ((a.map Prod.fst) ++ (b.map Prod.fst)).all (fun k => dlookup k a == dlookup k b)

/-! ## C10 - wait_for_status and Python-falsy timeouts

`UnifiedComponentProxy.wait_for_status` (lines 125-139) and
`AsyncComponentProxy.wait_for_status` (ServerDeviceProxy.py 257-280) run the
same logic: clear the event, then branch on the truthiness of `timeout`. -/

/-- Python truthiness of the timeout argument: None and 0 are falsy. -/
def timeoutTruthy : Option Nat → Bool
  | none => false
  | some t => t != 0

/-- wait_for_status over an environment in which the status event fires at
    time `fires` (none = never).  `registered` says whether the status name
    is in `status_events`.  Mirrors both proxy implementations. -/
def wait_for_status (registered : Bool) (timeout : Option Nat) (fires : Option Nat) :
    CallResult Bool :=
  if registered = false then .raise "No status method found"
  else if timeoutTruthy timeout then
    match fires with
    | some tf => if tf ≤ timeout.getD 0 then .ret true else .ret false
    | none => .ret false
  else
    match fires with
    | some _ => .ret true
    | none => .blocked

/-! ## C1 - execute_and_wait_for_status -/

/-- Transport environment for one execute-and-wait call. -/
structure ExecEnv (V : Type) where
  /-- outcome of the underlying MQTT publish attempt (may fail). -/
  publishOutcome : Except String Unit
  /-- status payload delivered on the status channel before the deadline, if any. -/
  reply : Option V
  /-- base_component.requires_polling() capability flag. -/
  requiresPolling : Bool
  /-- value obtained by a direct get_status query (pull path, a cache read). -/
  polled : Option V

/-- AsyncComponentProxy._publish_command (ServerDeviceProxy.py 461-481):
    the whole publish is wrapped in try/except, so a transport failure is
    logged and turned into a False return value, never a raise. -/
def publish_command (outcome : Except String Unit) : Bool :=
  match outcome with
  | .ok _ => true
  | .error _ => false

/-- AsyncComponentProxy.execute_and_wait_for_status (ServerDeviceProxy.py
    225-255): raise ValueError if the status is unknown, clear the event,
    publish the command, then wait on the event under the timeout; the
    status callback stores the payload in latest_status_data before setting
    the event, so on success the call returns the delivered payload, and a
    TimeoutError is caught and turned into None. -/
def server_execute_and_wait_for_status {V : Type} (registered : Bool) (env : ExecEnv V) :
    CallResult (Option V) :=
  if registered = false then .raise "No status method found"
  else
    let _published := publish_command env.publishOutcome
    match env.reply with
    | some v => .ret (some v)
    | none => .ret none

/-- Observable shape of one UnifiedComponentProxy.execute_and_wait_for_status
    call: its result, the settling delay it inserted, and whether it waited
    on the status event. -/
structure UnifiedCall (V : Type) where
  result : CallResult (Option V)
  settleDelayMs : Nat
  waitedOnEvent : Bool
  deriving DecidableEq

/-- UnifiedComponentProxy.execute_and_wait_for_status (97-123): raise
    ValueError if the status is unknown; execute the command; if the
    component requires polling, sleep 0.5 s and return a direct get_status
    query; otherwise wait on the event under the timeout and return the
    cached payload, with TimeoutError caught and turned into None. -/
def unified_execute_and_wait_for_status {V : Type} (registered : Bool) (env : ExecEnv V) :
    UnifiedCall V :=
  if registered = false then ⟨.raise "No status method found", 0, false⟩
  else if env.requiresPolling then ⟨.ret env.polled, 500, false⟩
  else
    match env.reply with
    | some v => ⟨.ret (some v), 0, true⟩
    | none => ⟨.ret none, 0, true⟩

/-! ## C9 - StatusEvent records and their queues -/

/-- asyncio.Queue.put_nowait together with the QueueFull recovery written in
    both status handlers: when the queue is full, drop the oldest element
    with get_nowait and append the new one.  maxsize 0 means unbounded
    (put_nowait never raises QueueFull then). -/
def queue_put_status {V : Type} (maxsize : Nat) (q : List V) (v : V) : List V :=
  if maxsize = 0 ∨ q.length < maxsize then q ++ [v]
  else q.drop 1 ++ [v]

/-- One StatusEvent record: readiness flag, FIFO of recent values, latest
    value cache. -/
structure StatusEventRec (V : Type) where
  ready : Bool
  queue : List V
  latest : Option V
  deriving DecidableEq

/-- UnifiedComponentProxy pipeline for one delivered update:
    BaseComponent._emit_status_update first writes the cache, then the
    subscribed _handle_status_update (79-95) sets the event and puts the
    value into the status queue created with maxsize 100 (line 56). -/
def unified_handle_status_update {V : Type} (r : StatusEventRec V) (v : V) :
    StatusEventRec V :=
  { ready := true, queue := queue_put_status 100 r.queue v, latest := some v }

/-- AsyncComponentProxy status_callback (ServerDeviceProxy.py 195-213):
    store the payload in latest_status_data, put it into the status queue
    created as asyncio.Queue() with no maxsize (line 184), set the event. -/
def server_status_callback {V : Type} (r : StatusEventRec V) (v : V) :
    StatusEventRec V :=
  { ready := true, queue := queue_put_status 0 r.queue v, latest := some v }

/-- Deliver a list of updates to a StatusEvent record in order. -/
def applyUpdates {V : Type} (f : StatusEventRec V → V → StatusEventRec V)
    (r : StatusEventRec V) (vs : List V) : StatusEventRec V :=
  vs.foldl f r

/-! ## C2 - two continuous watches sharing one status queue

AsyncComponentProxy keeps one queue per status (created once in
_setup_status_subscriptions); every continuous_wait_task started by
wait_for_continuous (345-408) performs get() on that same shared queue, so
each queued update is handed to exactly one of the competing watch tasks.
The scheduler interleaving is made explicit as a list of operations. -/

/-- State of one status queue with two continuous watches A and B on it. -/
structure FanState (V : Type) where
  queue : List V
  callsA : List V
  callsB : List V
  deriving DecidableEq

/-- One scheduler event: an update is delivered on the status channel, or
    watch A (resp. B) is scheduled and completes one queue.get(). -/
inductive FanOp (V : Type) : Type
  | put (v : V) : FanOp V
  | runA : FanOp V
  | runB : FanOp V

/-- Effect of one scheduler event.  A put goes through the status callback
    into the single shared queue; a scheduled watch takes the head of the
    shared queue (if any) and invokes its callback on it. -/
def fan_step {V : Type} : FanOp V → FanState V → FanState V
  | .put v, s => { s with queue := queue_put_status 0 s.queue v }
  | .runA, s =>
    match s.queue with
    | [] => s
    | v :: q => { s with queue := q, callsA := s.callsA ++ [v] }
  | .runB, s =>
    match s.queue with
    | [] => s
    | v :: q => { s with queue := q, callsB := s.callsB ++ [v] }

/-- Run a whole schedule. -/
def fan_run {V : Type} : List (FanOp V) → FanState V → FanState V
  | [], s => s
  | op :: ops, s => fan_run ops (fan_step op s)

/-- The updates delivered by a schedule, in order. -/
def putsOf {V : Type} : List (FanOp V) → List V
  | [] => []
  | .put v :: ops => v :: putsOf ops
  | .runA :: ops => putsOf ops
  | .runB :: ops => putsOf ops

/-- The empty fan state: empty shared queue, no callback invocations yet. -/
def fanStart {V : Type} : FanState V := ⟨[], [], []⟩

/-! ## C3 - stopping a continuous watch

AsyncComponentProxy.continuous_wait_task (365-401) loops: check the stop
flag at the top of each iteration, perform queue.get with a 1 s timeout,
invoke the callback on data, and re-check.  stop_continuous_wait (410-427)
sets the stop flag, joins the task under a 2 s grace period, and cancels it
if it did not exit.  One model step is one loop iteration; `busy` counts the
remaining steps of a long-running callback during which the flag is not
re-checked. -/

/-- State of one continuous watch and its background task. -/
structure WatchState (V : Type) where
  stopFlag : Bool
  queue : List V
  busy : Nat
  done : Bool
  cancelled : Bool
  calls : List V
  deriving DecidableEq

/-- One iteration of continuous_wait_task: a finished or cancelled task does
    nothing; a task inside a long callback makes progress on it; otherwise
    the stop flag is checked at the top of the loop, and if it is clear the
    task takes the next queued update (or times out on an empty queue) and
    starts the callback, which runs for `cbDur` further steps. -/
def continuous_wait_step {V : Type} (cbDur : Nat) (s : WatchState V) : WatchState V :=
  if s.done then s
  else if s.busy ≠ 0 then { s with busy := s.busy - 1 }
  else if s.stopFlag then { s with done := true }
  else
    match s.queue with
    | [] => s
    | v :: q => { s with queue := q, calls := s.calls ++ [v], busy := cbDur }

/-- stop_continuous_wait: set the stop flag, let the task run under the
    bounded grace period (two 1 s get timeouts fit in the 2 s join), and
    force-cancel it if it has not exited by then. -/
def stop_continuous_wait {V : Type} (cbDur : Nat) (s : WatchState V) : WatchState V :=
  if ((continuous_wait_step cbDur)^[2] { s with stopFlag := true }).done then
    (continuous_wait_step cbDur)^[2] { s with stopFlag := true }
  else
    { (continuous_wait_step cbDur)^[2] { s with stopFlag := true } with
      done := true, cancelled := true }

/-- UnifiedComponentProxy.stop_continuous_wait (194-203): for a registered
    watch id, cancel the task unconditionally and first, then join it with
    an unbounded await, swallowing the CancelledError.  There is no stop
    flag (the field stays untouched) and no grace period; cancellation
    terminates the unified monitor loop at its next suspension point (its
    CancelledError handler breaks), so the joined task ends done. -/
def unified_stop_continuous_wait {V : Type} (s : WatchState V) : WatchState V :=
  { s with done := true, cancelled := true }

/-- Environment events after the stop call: a late update delivery, or the
    scheduler giving the task another slot. -/
inductive WatchOp (V : Type) : Type
  | deliver (v : V) : WatchOp V
  | schedule : WatchOp V

/-- Effect of one post-stop environment event. -/
def watch_op_step {V : Type} (cbDur : Nat) : WatchOp V → WatchState V → WatchState V
  | .deliver v, s => { s with queue := s.queue ++ [v] }
  | .schedule, s => continuous_wait_step cbDur s

/-- Run a sequence of post-stop environment events. -/
def watch_run {V : Type} (cbDur : Nat) : List (WatchOp V) → WatchState V → WatchState V
  | [], s => s
  | op :: ops, s => watch_run cbDur ops (watch_op_step cbDur op s)

/-! ## C4 - wait_for_any_status -/

/-- One (component, status) pair of the device, with the value its status
    event fires with before the timeout, if it fires at all. -/
structure StatusSource (V : Type) where
  component : String
  status : String
  fired : Option V

/-- Lifecycle state of one racing wait task. -/
inductive TaskFate : Type
  | pending : TaskFate
  | completed : TaskFate
  | cancelled : TaskFate
  deriving DecidableEq

/-- Observable outcome of one wait_for_any_status call. -/
structure RaceResult (V : Type) where
  result : Option (String × String × V)
  fates : List TaskFate

/-- Task lifecycle bookkeeping of one wait_for_any_status call: the created
    wait tasks whose event fired are completed by asyncio.wait, the rest
    stay pending, and the code then cancels every pending task. -/
def race_fates {V : Type} (sources : List (StatusSource V)) : List TaskFate :=
  (sources.map (fun s => if s.fired.isSome then TaskFate.completed else .pending)).map
    (fun f => if f = .pending then TaskFate.cancelled else f)

/-- AsyncDeviceProxy.wait_for_any_status (ServerDeviceProxy.py 512-559):
    create one wait task per (component, status) pair; asyncio.wait with
    FIRST_COMPLETED completes the tasks whose event fired and leaves the
    rest pending; every pending task is then cancelled; if some task
    completed, return its (component, status, latest value) triple,
    otherwise return None. -/
def wait_for_any_status {V : Type} (sources : List (StatusSource V)) : RaceResult V :=
  if sources.isEmpty then ⟨none, []⟩
  else
    match List.find? (fun s => s.fired.isSome) sources with
    | some s =>
      ⟨(match s.fired with
        | some v => some (s.component, s.status, v)
        | none => none), race_fates sources⟩
    | none => ⟨none, race_fates sources⟩

/-- Number of wait tasks still outstanding (neither completed nor
    cancelled) after the call. -/
def outstanding {V : Type} (r : RaceResult V) : Nat :=
  r.fates.count TaskFate.pending

/-! ## C5/C6/C7 - the state synchronization engine (AsyncStateManager) -/

/-- A value stored in the merged snapshot: a device payload, an explicit
    Python None written on a correlation timeout, or a locally built
    heartbeat offline/error record (State.py 388-404). -/
inductive SnapVal (V : Type) : Type
  | data (v : V) : SnapVal V
  | pynone : SnapVal V
  | hbOffline (timestamp : Nat) (requestId : String) : SnapVal V
  | hbError (timestamp : Nat) (msg : String) : SnapVal V
  deriving DecidableEq

/-- State of the aggregator: internal and external dicts plus the change
    stream queue of merged snapshots (state_queue), the stream drained by
    get_state_updates. -/
structure AggState (β : Type) where
  internal : List (String × β)
  external : List (String × β)
  stateQueue : List (List (String × β))

/-- AsyncStateManager.get_all_states (State.py 603-605): merge of the
    external dict with the internal dict splatted over it. -/
def get_all_states {β : Type} (s : AggState β) : List (String × β) :=
  dmerge s.external s.internal

/-- The internal_states setter (State.py 619-624): if the new dict differs
    from the current one (Python dict equality), store it and publish the
    merged snapshot to the change stream.  The scheduled update_state_queue
    task is modelled as running immediately. -/
def set_internal_states {β : Type} [DecidableEq β] (value : List (String × β))
    (s : AggState β) : AggState β :=
  if dictBeq value s.internal then s
  else
    { internal := value, external := s.external,
      stateQueue := s.stateQueue ++ [get_all_states { s with internal := value }] }

/-- The external_states setter (State.py 631-638), same change-detection
    and publication discipline. -/
def set_external_states {β : Type} [DecidableEq β] (value : List (String × β))
    (s : AggState β) : AggState β :=
  if dictBeq value s.external then s
  else
    { internal := s.internal, external := value,
      stateQueue := s.stateQueue ++ [get_all_states { s with external := value }] }

/-- AsyncStateManager.set_state (State.py 611-613): assign one internal key
    through the internal_states setter. -/
def set_state {β : Type} [DecidableEq β] (k : String) (v : β) (s : AggState β) :
    AggState β :=
  set_internal_states (dinsert k v s.internal) s

/-- One declared data-command binding as listed in
    external_state_definitions, together with the outcome its
    execute_and_wait_for_status call has in this run. -/
structure CmdInfo (V : Type) where
  statusPath : String
  /-- status_method_name is non-null for this binding. -/
  hasStatus : Bool
  /-- payload delivered before the 10 s correlation deadline, if any. -/
  reply : Option V
  /-- an exception raised while processing this binding, if any. -/
  raises : Option String

/-- Body of one iteration of _refresh_device_data (State.py 406-449) before
    its except clause: skip storing for bindings without a status method,
    otherwise correlate and store the payload, or an explicit None when the
    wait returned None on timeout. -/
def process_binding {V : Type} (c : CmdInfo V) (d : List (String × SnapVal V)) :
    Except String (List (String × SnapVal V)) :=
  match c.raises with
  | some m => .error m
  | none =>
    if c.hasStatus = false then .ok d
    else
      match c.reply with
      | some v => .ok (dinsert c.statusPath (.data v) d)
      | none => .ok (dinsert c.statusPath .pynone d)

/-- Embeds _refresh_device_data: process the device's bindings in order; the
    per-binding except clause catches any exception and stores an explicit
    None at the binding's status path. -/
def refresh_device_data {V : Type} (cmds : List (CmdInfo V))
    (acc : List (String × SnapVal V)) : List (String × SnapVal V) :=
  match cmds with
  | [] => acc
  | c :: rest =>
    match process_binding c acc with
    | .ok d => refresh_device_data rest d
    | .error _ => refresh_device_data rest (dinsert c.statusPath .pynone acc)

/-! ## C7 - heartbeat refresh and the any-reply channel -/

/-- Modelled from the spec: `device_proxy.execute_heartbeat_and_wait` is
    referenced from State.py but defined nowhere under src.  Spec section
    4.5: the monitor sends a liveness probe and waits for any reply on the
    namespace's response channel within a timeout; a reply received is
    treated as evidence of liveness, so the call returns the reply payload
    observed within the timeout, or None. -/
def execute_heartbeat_and_wait {V : Type} (replyWithinTimeout : Option V) : Option V :=
  replyWithinTimeout

/-- One heartbeat-capable target with its probe outcome for this cycle. -/
structure HBInfo (V : Type) where
  statusPath : String
  /-- reply observed on the response channel within the 5 s timeout, if any. -/
  reply : Option V
  /-- an exception raised while probing, if any. -/
  raises : Option String

/-- Embeds _refresh_single_heartbeat (State.py 369-404): probe and wait; store the
    reply payload on success, an explicit offline record on timeout, and an
    error record when the probe itself raised. -/
def refresh_single_heartbeat {V : Type} (now : Nat) (h : HBInfo V) : SnapVal V :=
  match h.raises with
  | some m => .hbError now m
  | none =>
    match execute_heartbeat_and_wait h.reply with
    | some v => .data v
    | none => .hbOffline now "timeout"

/-- Embeds _refresh_heartbeat_data (State.py 354-367): refresh every heartbeat
    target into the shared new-states dict. -/
def refresh_heartbeat_data {V : Type} (now : Nat) (hbs : List (HBInfo V))
    (acc : List (String × SnapVal V)) : List (String × SnapVal V) :=
  match hbs with
  | [] => acc
  | h :: rest => refresh_heartbeat_data now rest (dinsert h.statusPath (refresh_single_heartbeat now h) acc)

/-- refresh_all_data (State.py 315-332), the bootstrap pass: gather the
    component refreshes and the heartbeat refreshes into one fresh dict and
    install it as the external states when non-empty. -/
def refresh_all_data {V : Type} [DecidableEq V] (now : Nat) (cmds : List (CmdInfo V))
    (hbs : List (HBInfo V)) (s : AggState (SnapVal V)) : AggState (SnapVal V) :=
  if (refresh_heartbeat_data now hbs (refresh_device_data cmds [])).isEmpty then s
  else set_external_states (refresh_heartbeat_data now hbs (refresh_device_data cmds [])) s

/-- Embeds _refresh_periodic_heartbeats (State.py 496-517), one monitor cycle:
    refresh all heartbeats into a fresh dict and merge it over the current
    external states. -/
def refresh_periodic_heartbeats {V : Type} [DecidableEq V] (now : Nat)
    (hbs : List (HBInfo V)) (s : AggState (SnapVal V)) : AggState (SnapVal V) :=
  if (refresh_heartbeat_data now hbs []).isEmpty then s
  else set_external_states (dmerge s.external (refresh_heartbeat_data now hbs [])) s

/-- ServerMQTTManager._handle_message (94-117) restricted to the heartbeat
    channel: when the topic is the namespace's heartbeat response topic,
    the payload is handed to every registered heartbeat callback, with no
    request/response id inspection; other topics deliver nothing here. -/
def handle_heartbeat_message {V : Type} (ns : String) (topic : String)
    (callbackCount : Nat) (payload : V) : List V :=
  if topic = ns ++ "/heartbeat/response" then List.replicate callbackCount payload
  else []

/-! ## C8 - the front-end command FIFO (AsyncCommandProcessor) -/

/-- Outcome of one branch handler body (the dispatcher or controller call
    inside the branch's try). -/
inductive HandlerOutcome : Type
  | ok : HandlerOutcome
  | raised (msg : String) : HandlerOutcome
  deriving DecidableEq

/-- Behavior of the external collaborators invoked by the loop branches. -/
structure LoopEnv (V : Type) where
  runDirect : V → HandlerOutcome
  runControl : V → HandlerOutcome
  runManual : String → V → HandlerOutcome
  runSetTemp : V → HandlerOutcome

/-- Body of one _run_loop iteration for a dequeued (command, data) pair
    (ControlLoop.py 164-208): the if/elif chain on the command string, each
    fallible branch wrapped in its own try/except, so a handler failure is
    logged and the loop continues; True records a successful handling. -/
def process_command {V : Type} (env : LoopEnv V) (command : String) (data : V) : Bool :=
  if command = "DIRECT" then
    match env.runDirect data with
    | .ok => true
    | .raised _ => false
  else if command = "CONTROL" then
    match env.runControl data with
    | .ok => true
    | .raised _ => false
  else if command.startsWith "MANUAL " then
    match env.runManual command data with
    | .ok => true
    | .raised _ => false
  else if command = "SET_TEMPERATURE" then
    match env.runSetTemp data with
    | .ok => true
    | .raised _ => false
  else if command = "PLACEHOLDER" then true
  else true

/-- The processing trace of _run_loop over a queue of submitted commands:
    the single consumer dequeues in FIFO order and processes each entry,
    recording whether its handler succeeded. -/
def drain_commands {V : Type} (env : LoopEnv V) : List (String × V) → List (String × V × Bool)
  | [] => []
  | (c, d) :: rest => (c, d, process_command env c d) :: drain_commands env rest

/-- Queue-facing state of the processor. -/
structure ProcessorState (V : Type) where
  commandQueue : List (String × V)

/-- add_command (ControlLoop.py 81-90): enqueue at the tail of the FIFO. -/
def add_command {V : Type} (command : String) (data : V) (s : ProcessorState V) :
    ProcessorState V :=
  { s with commandQueue := s.commandQueue ++ [(command, data)] }

/-- Lifecycle flags of the processor: start_processing (92-108) refuses to
    start a second consumer loop while one is running. -/
structure ProcessorCtl : Type where
  running : Bool
  consumerTasks : Nat
  deriving DecidableEq

/-- start_processing: when already running, return without spawning;
    otherwise spawn the single _run_loop consumer task. -/
def start_processing (p : ProcessorCtl) : ProcessorCtl :=
  if p.running then p else ⟨true, p.consumerTasks + 1⟩

/-! ## Dictionary lemmas -/

theorem dlookup_dinsert_self {β : Type} (k : String) (v : β) (d : List (String × β)) :
    dlookup k (dinsert k v d) = some v := by
  induction d with
  | nil => simp [dinsert, dlookup]
  | cons kv rest ih =>
    obtain ⟨k1, v1⟩ := kv
    by_cases h : k1 = k <;> simp [dinsert, dlookup, h, ih]

theorem dlookup_dinsert_ne {β : Type} {k k1 : String} (hne : k1 ≠ k) (v : β)
    (d : List (String × β)) : dlookup k (dinsert k1 v d) = dlookup k d := by
  induction d with
  | nil => simp [dinsert, dlookup, hne]
  | cons kv rest ih =>
    obtain ⟨k2, v2⟩ := kv
    by_cases h : k2 = k1
    · subst h
      simp [dinsert, dlookup, hne]
    · by_cases h2 : k2 = k
      · subst h2
        simp [dinsert, dlookup, h]
      · simp [dinsert, dlookup, h, h2, ih]

theorem dlookup_eq_none_of_not_mem {β : Type} {k : String} {d : List (String × β)}
    (h : k ∉ d.map Prod.fst) : dlookup k d = none := by
  induction d with
  | nil => simp [dlookup]
  | cons kv rest ih =>
    obtain ⟨k1, v1⟩ := kv
    simp only [List.map_cons, List.mem_cons, not_or] at h
    have hne : k1 ≠ k := fun he => h.1 (by simp [he])
    simp [dlookup, hne, ih h.2]

theorem mem_keys_dinsert {β : Type} {k1 k : String} (v : β) (d : List (String × β)) :
    k1 ∈ (dinsert k v d).map Prod.fst ↔ k1 = k ∨ k1 ∈ d.map Prod.fst := by
  induction d with
  | nil => simp [dinsert]
  | cons kv rest ih =>
    obtain ⟨k2, v2⟩ := kv
    by_cases h : k2 = k <;> (simp [dinsert, h, ih]; try tauto)

theorem nodup_keys_dinsert {β : Type} {k : String} (v : β) {d : List (String × β)}
    (h : (d.map Prod.fst).Nodup) : ((dinsert k v d).map Prod.fst).Nodup := by
  induction d with
  | nil => simp [dinsert]
  | cons kv rest ih =>
    obtain ⟨k2, v2⟩ := kv
    simp only [List.map_cons, List.nodup_cons] at h
    by_cases he : k2 = k
    · subst he
      simpa [dinsert] using h
    · have hstep : dinsert k v ((k2, v2) :: rest) = (k2, v2) :: dinsert k v rest := by
        simp [dinsert, he]
      rw [hstep, List.map_cons, List.nodup_cons]
      refine ⟨?_, ih h.2⟩
      rw [mem_keys_dinsert]
      rintro (rfl | hmem)
      · exact he rfl
      · exact h.1 hmem

theorem dlookup_dmerge_of_none {β : Type} {k : String} {b : List (String × β)}
    (hb : dlookup k b = none) (a : List (String × β)) :
    dlookup k (dmerge a b) = dlookup k a := by
  induction b generalizing a with
  | nil => simp [dmerge]
  | cons kv rest ih =>
    obtain ⟨k1, v1⟩ := kv
    by_cases h : k1 = k
    · simp [dlookup, h] at hb
    · simp only [dlookup, h, if_false] at hb
      show dlookup k (dmerge (dinsert k1 v1 a) rest) = dlookup k a
      rw [ih hb]
      exact dlookup_dinsert_ne h v1 a

theorem dlookup_dmerge_of_some {β : Type} {k : String} {v : β} {b : List (String × β)}
    (hnd : (b.map Prod.fst).Nodup) (hb : dlookup k b = some v) (a : List (String × β)) :
    dlookup k (dmerge a b) = some v := by
  induction b generalizing a with
  | nil => simp [dlookup] at hb
  | cons kv rest ih =>
    obtain ⟨k1, v1⟩ := kv
    simp only [List.map_cons, List.nodup_cons] at hnd
    show dlookup k (dmerge (dinsert k1 v1 a) rest) = some v
    by_cases h : k1 = k
    · subst h
      simp [dlookup] at hb
      subst hb
      rw [dlookup_dmerge_of_none (dlookup_eq_none_of_not_mem hnd.1) _]
      exact dlookup_dinsert_self k1 v1 a
    · have hb2 : dlookup k rest = some v := by
        simpa [dlookup, h] using hb
      exact ih hnd.2 hb2 _

/-! ## C10 -/

/-- C10: with a Python-falsy timeout argument (None or 0) a registered
    wait_for_status call disables the deadline entirely: it can never
    return False, it blocks until the status event fires, and whenever it
    does return it returns True - so timeout 0 does not mean an immediate
    timeout. -/
theorem C10_wait_for_status_falsy_timeout (timeout fires : Option Nat)
    (hfalsy : timeoutTruthy timeout = false) :
    wait_for_status true timeout fires ≠ .ret false ∧
    (∀ b, wait_for_status true timeout fires = .ret b → b = true) ∧
    (∀ n, fires = some n → wait_for_status true timeout fires = .ret true) ∧
    (fires = none → wait_for_status true timeout fires = .blocked) := by
  unfold wait_for_status
  cases fires <;> simp [hfalsy]

/-- C10 witness: with timeout 0 and the event firing at time 5, the call
    returns True rather than timing out immediately. -/
theorem C10_witness :
    timeoutTruthy (some 0) = false ∧
    wait_for_status true (some 0) (some 5) = .ret true := by
  refine ⟨by decide, ?_⟩
  exact (C10_wait_for_status_falsy_timeout (some 0) (some 5) (by decide)).2.2.1 5 rfl

/-! ## C1 -/

/-- C1: with the status name registered on the proxy,
    execute_and_wait_for_status returns the delivered status payload or
    None and never raises, even when the transport never replies; on the
    push-capable server proxy a missing reply (timeout) yields None, and on
    a pull-capable (requires-polling) component the unified proxy inserts
    the fixed 500 ms settling delay and directly queries the status instead
    of waiting on the event. -/
theorem C1_execute_and_wait_for_status {V : Type} (registered : Bool) (env : ExecEnv V)
    (hreg : registered = true) :
    server_execute_and_wait_for_status registered env = .ret env.reply ∧
    (∀ msg, server_execute_and_wait_for_status registered env ≠ .raise msg) ∧
    (env.reply = none → server_execute_and_wait_for_status registered env = .ret none) ∧
    (env.requiresPolling = true →
      unified_execute_and_wait_for_status registered env = ⟨.ret env.polled, 500, false⟩) ∧
    (env.requiresPolling = false →
      unified_execute_and_wait_for_status registered env = ⟨.ret env.reply, 0, true⟩) ∧
    (∀ msg, (unified_execute_and_wait_for_status registered env).result ≠ .raise msg) := by
  subst hreg
  unfold server_execute_and_wait_for_status unified_execute_and_wait_for_status
  cases henv : env.reply <;> cases hpoll : env.requiresPolling <;>
    simp [henv, hpoll, publish_command]

/-- C1 witness: a concrete push component whose transport delivers payload 7
    before the deadline. -/
theorem C1_witness :
    server_execute_and_wait_for_status true
      ({ publishOutcome := .ok (), reply := some 7, requiresPolling := false,
         polled := none } : ExecEnv Nat) = .ret (some 7) :=
  (C1_execute_and_wait_for_status true
    { publishOutcome := .ok (), reply := some 7, requiresPolling := false,
      polled := none } rfl).1

/-! ## C9 -/

theorem server_queue_growth {V : Type} (vs : List V) (r : StatusEventRec V) :
    (applyUpdates server_status_callback r vs).queue = r.queue ++ vs := by
  induction vs generalizing r with
  | nil => simp [applyUpdates]
  | cons v rest ih =>
    show (applyUpdates server_status_callback (server_status_callback r v) rest).queue = _
    rw [ih]
    simp [server_status_callback, queue_put_status]

/-- C9 amended: on each delivered update both proxies set the latest-value
    cache to the newest value and set the readiness flag; the
    UnifiedComponentProxy FIFO is bounded at its fixed capacity 100, with
    the newest value always appended and the oldest dropped exactly when
    the FIFO is full; the server-side AsyncComponentProxy FIFO is created
    unbounded, so every update is appended and none is ever dropped or
    silently discarded, but its length is not bounded by any fixed
    capacity. -/
theorem C9_status_event_invariant {V : Type} (r : StatusEventRec V) (v : V) :
    (r.queue.length ≤ 100 → (unified_handle_status_update r v).queue.length ≤ 100) ∧
    (r.queue.length < 100 → (unified_handle_status_update r v).queue = r.queue ++ [v]) ∧
    (¬ r.queue.length < 100 → (unified_handle_status_update r v).queue = r.queue.drop 1 ++ [v]) ∧
    (unified_handle_status_update r v).latest = some v ∧
    (unified_handle_status_update r v).ready = true ∧
    server_status_callback r v = ⟨true, r.queue ++ [v], some v⟩ := by
  refine ⟨?_, ?_, ?_, rfl, rfl, ?_⟩
  · intro h
    by_cases hlt : r.queue.length < 100
    · simp [unified_handle_status_update, queue_put_status, hlt]
      omega
    · have : r.queue.length = 100 := by omega
      simp [unified_handle_status_update, queue_put_status, hlt]
      simp [this]
  · intro hlt
    simp [unified_handle_status_update, queue_put_status, hlt]
  · intro hlt
    simp [unified_handle_status_update, queue_put_status, hlt]
  · simp [server_status_callback, queue_put_status]

/-- C9 counterexample: the server-side status queue is unbounded, so after
    101 delivered updates it holds all 101 values - its length exceeds the
    program's fixed FIFO capacity of 100 and no oldest element was dropped,
    refuting the claimed bounded-capacity invariant for every StatusEvent
    record. -/
theorem C9_counterexample :
    (applyUpdates server_status_callback ⟨false, [], none⟩ (List.range 101)).queue
      = List.range 101 ∧
    100 < (applyUpdates server_status_callback
      (⟨false, [], none⟩ : StatusEventRec Nat) (List.range 101)).queue.length := by
  have h := server_queue_growth (List.range 101) (⟨false, [], none⟩ : StatusEventRec Nat)
  constructor
  · simpa using h
  · rw [h]
    simp

/-- C9 witness: a concrete update through the server callback appends the
    newest value, sets the cache and sets the flag. -/
theorem C9_witness :
    server_status_callback (⟨false, [0], none⟩ : StatusEventRec Nat) 1
      = ⟨true, [0, 1], some 1⟩ :=
  (C9_status_event_invariant (⟨false, [0], none⟩ : StatusEventRec Nat) 1).2.2.2.2.2

/-! ## C2 -/

theorem fan_run_perm {V : Type} (ops : List (FanOp V)) (s : FanState V) :
    List.Perm
      ((fan_run ops s).callsA ++ (fan_run ops s).callsB ++ (fan_run ops s).queue)
      (s.callsA ++ s.callsB ++ s.queue ++ putsOf ops) := by
  induction ops generalizing s with
  | nil => simp [fan_run, putsOf]
  | cons op ops ih =>
    have hstep : fan_run (op :: ops) s = fan_run ops (fan_step op s) := rfl
    rw [hstep]
    refine (ih (fan_step op s)).trans ?_
    cases op with
    | put v =>
      simp [fan_step, queue_put_status, putsOf, List.append_assoc]
    | runA =>
      cases hq : s.queue with
      | nil => simp [fan_step, hq, putsOf]
      | cons v q =>
        have hp : List.Perm (s.callsA ++ (v :: (s.callsB ++ (q ++ putsOf ops))))
            (s.callsA ++ (s.callsB ++ (v :: (q ++ putsOf ops)))) :=
          List.Perm.append_left _ List.perm_middle.symm
        simpa [fan_step, hq, putsOf, List.append_assoc] using hp
    | runB =>
      cases hq : s.queue with
      | nil => simp [fan_step, hq, putsOf]
      | cons v q =>
        simp [fan_step, hq, putsOf, List.append_assoc]

/-- C2 amended: all watches on one status share that status's single queue,
    so each delivered update is consumed by exactly one of the watches:
    after any scheduler interleaving, the two callback traces together with
    the still-queued values are a permutation of the delivered updates - N
    callback invocations in total once the queue is drained, never N per
    watch. -/
theorem C2_shared_queue_conservation {V : Type} (ops : List (FanOp V)) :
    List.Perm
      ((fan_run ops fanStart).callsA ++ (fan_run ops fanStart).callsB ++
        (fan_run ops fanStart).queue) (putsOf ops) ∧
    (fan_run ops fanStart).callsA.length + (fan_run ops fanStart).callsB.length +
      (fan_run ops fanStart).queue.length = (putsOf ops).length := by
  have h2 : List.Perm
      ((fan_run ops fanStart).callsA ++ (fan_run ops fanStart).callsB ++
        (fan_run ops fanStart).queue) (putsOf ops) := by
    have h := fan_run_perm ops (fanStart : FanState V)
    simpa [fanStart] using h
  refine ⟨h2, ?_⟩
  have hl := h2.length_eq
  simp only [List.length_append] at hl
  omega

/-- C2 counterexample: one update (N = 1) is delivered while two watches
    are active on the same status; the scheduler runs watch A first, so
    watch A's callback receives the update and watch B's callback is
    invoked zero times, not once - the claimed per-watch fan-out fails. -/
theorem C2_counterexample :
    (fan_run [FanOp.put 42, FanOp.runA, FanOp.runB] fanStart).callsA = [42] ∧
    (fan_run [FanOp.put 42, FanOp.runA, FanOp.runB] fanStart).callsB = [] ∧
    putsOf [FanOp.put (42 : Nat), FanOp.runA, FanOp.runB] = [42] ∧
    (fan_run [FanOp.put 42, FanOp.runA, FanOp.runB] fanStart).callsB.length
      ≠ (putsOf [FanOp.put (42 : Nat), FanOp.runA, FanOp.runB]).length := by
  refine ⟨rfl, rfl, rfl, by decide⟩

/-! ## C3 -/

theorem continuous_wait_step_of_done {V : Type} (cbDur : Nat) {s : WatchState V}
    (h : s.done = true) : continuous_wait_step cbDur s = s := by
  unfold continuous_wait_step
  simp [h]

theorem continuous_wait_step_stopFlag {V : Type} (cbDur : Nat) (s : WatchState V) :
    (continuous_wait_step cbDur s).stopFlag = s.stopFlag := by
  unfold continuous_wait_step
  split_ifs <;> try rfl
  cases s.queue <;> rfl

theorem iterate_step_stopFlag {V : Type} (cbDur n : Nat) (s : WatchState V) :
    ((continuous_wait_step cbDur)^[n] s).stopFlag = s.stopFlag := by
  induction n generalizing s with
  | zero => rfl
  | succ n ih =>
    rw [Function.iterate_succ_apply, ih]
    exact continuous_wait_step_stopFlag cbDur s

theorem stop_continuous_wait_done {V : Type} (cbDur : Nat) (s : WatchState V) :
    (stop_continuous_wait cbDur s).done = true := by
  unfold stop_continuous_wait
  split
  · assumption
  · rfl

theorem watch_run_of_done {V : Type} (cbDur : Nat) (ops : List (WatchOp V)) :
    ∀ s : WatchState V, s.done = true →
      (watch_run cbDur ops s).calls = s.calls ∧ (watch_run cbDur ops s).done = true := by
  induction ops with
  | nil => exact fun s h => ⟨rfl, h⟩
  | cons op ops ih =>
    intro s h
    have hstep : watch_run cbDur (op :: ops) s
        = watch_run cbDur ops (watch_op_step cbDur op s) := rfl
    rw [hstep]
    have hpres : (watch_op_step cbDur op s).calls = s.calls ∧
        (watch_op_step cbDur op s).done = true := by
      cases op with
      | deliver v => exact ⟨rfl, h⟩
      | schedule =>
        have : watch_op_step cbDur WatchOp.schedule s = continuous_wait_step cbDur s := rfl
        rw [this, continuous_wait_step_of_done cbDur h]
        exact ⟨rfl, h⟩
    obtain ⟨h1, h2⟩ := ih (watch_op_step cbDur op s) hpres.2
    exact ⟨h1.trans hpres.1, h2⟩

/-- C3 amended: once stop_continuous_wait returns, the watch task is
    finished and no sequence of later update deliveries or scheduler slots
    produces any further callback invocation, in both variants.  The
    server-side AsyncComponentProxy variant sets the watch's stop flag,
    joins the task within the bounded grace period (two of the loop's 1 s
    get timeouts fit in the 2 s join) and force-cancels it only when it did
    not exit in time; the UnifiedComponentProxy variant instead cancels the
    task unconditionally and first, sets no stop flag, and joins with an
    unbounded await. -/
theorem C3_stop_continuous_wait {V : Type} (cbDur : Nat) (s : WatchState V)
    (ops : List (WatchOp V)) :
    (stop_continuous_wait cbDur s).done = true ∧
    (stop_continuous_wait cbDur s).stopFlag = true ∧
    (watch_run cbDur ops (stop_continuous_wait cbDur s)).calls
      = (stop_continuous_wait cbDur s).calls ∧
    (((continuous_wait_step cbDur)^[2] { s with stopFlag := true }).done = false →
      (stop_continuous_wait cbDur s).cancelled = true) ∧
    (unified_stop_continuous_wait s).done = true ∧
    (unified_stop_continuous_wait s).cancelled = true ∧
    (unified_stop_continuous_wait s).stopFlag = s.stopFlag ∧
    (watch_run cbDur ops (unified_stop_continuous_wait s)).calls
      = (unified_stop_continuous_wait s).calls := by
  have hdone := stop_continuous_wait_done cbDur s
  refine ⟨hdone, ?_, ?_, ?_, rfl, rfl, rfl, ?_⟩
  · unfold stop_continuous_wait
    split
    · rw [iterate_step_stopFlag]
    · show ((continuous_wait_step cbDur)^[2] { s with stopFlag := true }).stopFlag = true
      rw [iterate_step_stopFlag]
  · exact (watch_run_of_done cbDur ops _ hdone).1
  · intro hnf
    unfold stop_continuous_wait
    split
    · rename_i hcontra
      rw [hnf] at hcontra
      cases hcontra
    · rfl
  · exact (watch_run_of_done cbDur ops (unified_stop_continuous_wait s) rfl).1

/-- C3 counterexample: the UnifiedComponentProxy stop variant falsifies the
    claim's mechanism at a concrete watch.  For an idle watch (empty queue,
    no callback in flight) that would exit at its very first flag check,
    the unified stop still ends it force-cancelled and never sets any stop
    flag, while the server variant on the same watch sets the flag and
    joins it uncancelled within the grace period - so stop_continuous_wait
    does not, for every watch id, set a stop flag and cancel only on a
    missed 2 s deadline. -/
theorem C3_counterexample :
    unified_stop_continuous_wait (⟨false, [], 0, false, false, []⟩ : WatchState Nat)
      = ⟨false, [], 0, true, true, []⟩ ∧
    (unified_stop_continuous_wait (⟨false, [], 0, false, false, []⟩ : WatchState Nat)).stopFlag
      = false ∧
    (unified_stop_continuous_wait (⟨false, [], 0, false, false, []⟩ : WatchState Nat)).cancelled
      = true ∧
    (stop_continuous_wait 0 (⟨false, [], 0, false, false, []⟩ : WatchState Nat)).stopFlag
      = true ∧
    (stop_continuous_wait 0 (⟨false, [], 0, false, false, []⟩ : WatchState Nat)).cancelled
      = false := by
  refine ⟨rfl, rfl, rfl, by decide, by decide⟩

/-- C3 witness: a concrete stopped watch with a slow callback in flight;
    after two late deliveries and two extra scheduler slots the callback
    trace is unchanged. -/
theorem C3_witness :
    (watch_run 5 [WatchOp.deliver 9, WatchOp.schedule, WatchOp.deliver 8, WatchOp.schedule]
        (stop_continuous_wait 5 (⟨false, [1, 2], 3, false, false, [0]⟩ : WatchState Nat))).calls
      = (stop_continuous_wait 5 (⟨false, [1, 2], 3, false, false, [0]⟩ : WatchState Nat)).calls :=
  (C3_stop_continuous_wait 5 (⟨false, [1, 2], 3, false, false, [0]⟩ : WatchState Nat)
    [WatchOp.deliver 9, WatchOp.schedule, WatchOp.deliver 8, WatchOp.schedule]).2.2.1

/-! ## C4 -/

theorem find?_eq_of_countP_one {α : Type} (p : α → Bool) (l : List α) (a : α)
    (ha : a ∈ l) (hpa : p a = true) (hcount : l.countP p = 1) :
    List.find? p l = some a := by
  induction l with
  | nil => cases ha
  | cons x xs ih =>
    by_cases hx : p x = true
    · rw [List.find?_cons_of_pos _ hx]
      rcases List.mem_cons.mp ha with rfl | hmem
      · rfl
      · exfalso
        rw [List.countP_cons_of_pos _ _ hx] at hcount
        have hz : xs.countP p = 0 := by omega
        have := List.countP_eq_zero.mp hz a hmem
        rw [hpa] at this
        exact this rfl
    · rw [List.find?_cons_of_neg _ hx]
      rcases List.mem_cons.mp ha with rfl | hmem
      · rw [hpa] at hx
        cases hx rfl
      · rw [List.countP_cons_of_neg _ _ hx] at hcount
        exact ih hmem hcount

theorem count_pending_cancelled {V : Type} (sources : List (StatusSource V)) :
    (race_fates sources).count TaskFate.pending = 0 := by
  rw [List.count_eq_zero]
  intro hmem
  rw [race_fates, List.mem_map] at hmem
  obtain ⟨f, _, hf⟩ := hmem
  by_cases h : f = TaskFate.pending <;> simp [h] at hf

/-- C4: wait_for_any_status races one wait per (component, status) pair of
    the device; when exactly one source fires before the timeout it returns
    that (component, status, value) triple, when none fires it returns None
    after the timeout, and in both cases every racing task ends completed
    or cancelled, leaving zero outstanding tasks. -/
theorem C4_wait_for_any_status {V : Type} (sources : List (StatusSource V)) :
    (∀ (src : StatusSource V) (v : V),
      sources.countP (fun t => t.fired.isSome) = 1 → src ∈ sources →
      src.fired = some v →
      (wait_for_any_status sources).result = some (src.component, src.status, v) ∧
      outstanding (wait_for_any_status sources) = 0) ∧
    ((∀ t ∈ sources, t.fired = none) →
      (wait_for_any_status sources).result = none ∧
      outstanding (wait_for_any_status sources) = 0) := by
  constructor
  · intro src v hone hmem hfired
    have hne : sources.isEmpty = false := by
      cases sources
      · cases hmem
      · rfl
    have hfind : List.find? (fun s => s.fired.isSome) sources = some src :=
      find?_eq_of_countP_one _ sources src hmem (by rw [hfired]; rfl) hone
    have heq : wait_for_any_status sources
        = ⟨some (src.component, src.status, v), race_fates sources⟩ := by
      unfold wait_for_any_status
      rw [hne, hfind]
      simp [hfired]
    rw [heq]
    exact ⟨rfl, count_pending_cancelled sources⟩
  · intro hnone
    cases hs : sources with
    | nil => exact ⟨rfl, rfl⟩
    | cons x xs =>
      have hfind : List.find? (fun s => s.fired.isSome) (x :: xs) = none := by
        rw [List.find?_eq_none]
        intro t hmem
        rw [hnone t (hs ▸ hmem)]
        exact Bool.false_ne_true
      have heq : wait_for_any_status (x :: xs) = ⟨none, race_fates (x :: xs)⟩ := by
        unfold wait_for_any_status
        rw [hfind]
        simp
      rw [heq]
      exact ⟨rfl, count_pending_cancelled (x :: xs)⟩

/-- C4 witness: three sources of which exactly the middle one fires; the
    call returns its triple and leaves zero outstanding tasks. -/
theorem C4_witness :
    (wait_for_any_status
        [⟨"fan", "speed_status", (none : Option Nat)⟩,
         ⟨"temp_sensor", "temp_status", some 72⟩,
         ⟨"relay", "power_status", none⟩]).result
      = some ("temp_sensor", "temp_status", 72) ∧
    outstanding (wait_for_any_status
        [⟨"fan", "speed_status", (none : Option Nat)⟩,
         ⟨"temp_sensor", "temp_status", some 72⟩,
         ⟨"relay", "power_status", none⟩]) = 0 :=
  (C4_wait_for_any_status
      [⟨"fan", "speed_status", (none : Option Nat)⟩,
       ⟨"temp_sensor", "temp_status", some 72⟩,
       ⟨"relay", "power_status", none⟩]).1
    ⟨"temp_sensor", "temp_status", some 72⟩ 72 (by decide)
    (by simp) rfl

/-! ## C5 -/

theorem dictBeq_lookup {β : Type} [DecidableEq β] {a b : List (String × β)}
    (h : dictBeq a b = true) (k : String) : dlookup k a = dlookup k b := by
  by_cases hk : k ∈ a.map Prod.fst ++ b.map Prod.fst
  · unfold dictBeq at h
    rw [List.all_eq_true] at h
    have := h k hk
    simpa using this
  · rw [List.mem_append] at hk
    push_neg at hk
    rw [dlookup_eq_none_of_not_mem hk.1, dlookup_eq_none_of_not_mem hk.2]

/-- C5: get_all_states is always the union of the latest known value per
    path, with internal (local) keys laid over the external device-sourced
    ones; after set_state K V an immediate get_all_states contains K with
    value V; and each snapshot-dict update that differs from the previous
    value (Python dict equality) publishes the full merged snapshot to the
    change stream consumed by get_state_updates, while an update equal to
    the previous value publishes nothing. -/
theorem C5_aggregator_snapshot {β : Type} [DecidableEq β] (s : AggState β)
    (k : String) (v : β) (d : List (String × β))
    (hnd : (s.internal.map Prod.fst).Nodup) :
    (∀ v0, dlookup k s.internal = some v0 → dlookup k (get_all_states s) = some v0) ∧
    (dlookup k s.internal = none → dlookup k (get_all_states s) = dlookup k s.external) ∧
    dlookup k (get_all_states (set_state k v s)) = some v ∧
    (dictBeq d s.internal = true → set_internal_states d s = s) ∧
    (dictBeq d s.internal = false →
      (set_internal_states d s).stateQueue
        = s.stateQueue ++ [get_all_states { s with internal := d }] ∧
      (set_internal_states d s).internal = d) ∧
    (dictBeq d s.external = true → set_external_states d s = s) ∧
    (dictBeq d s.external = false →
      (set_external_states d s).stateQueue
        = s.stateQueue ++ [get_all_states { s with external := d }] ∧
      (set_external_states d s).external = d) := by
  refine ⟨?_, ?_, ?_, ?_, ?_, ?_, ?_⟩
  · intro v0 h0
    exact dlookup_dmerge_of_some hnd h0 s.external
  · intro h0
    exact dlookup_dmerge_of_none h0 s.external
  · unfold set_state set_internal_states
    split
    · rename_i hbeq
      have h1 := dictBeq_lookup hbeq k
      rw [dlookup_dinsert_self] at h1
      exact dlookup_dmerge_of_some hnd h1.symm s.external
    · show dlookup k (dmerge s.external (dinsert k v s.internal)) = some v
      exact dlookup_dmerge_of_some (nodup_keys_dinsert v hnd)
        (dlookup_dinsert_self k v s.internal) s.external
  · intro hbeq
    unfold set_internal_states
    rw [hbeq]
    rfl
  · intro hbeq
    unfold set_internal_states
    rw [hbeq]
    exact ⟨rfl, rfl⟩
  · intro hbeq
    unfold set_external_states
    rw [hbeq]
    rfl
  · intro hbeq
    unfold set_external_states
    rw [hbeq]
    exact ⟨rfl, rfl⟩

/-- C5 witness: a concrete snapshot where setting a fresh internal key
    makes it immediately visible in get_all_states. -/
theorem C5_witness :
    dlookup "target_temperature"
      (get_all_states (set_state "target_temperature" 72
        (⟨[("control", 1)], [("hvac.temp", 68)], []⟩ : AggState Nat))) = some 72 :=
  (C5_aggregator_snapshot
    (⟨[("control", 1)], [("hvac.temp", 68)], []⟩ : AggState Nat)
    "target_temperature" 72 [] (by simp)).2.2.1

/-! ## C6 -/

theorem isSome_dlookup_dinsert {β : Type} (k p : String) (v : β) (d : List (String × β))
    (h : (dlookup p d).isSome = true) : (dlookup p (dinsert k v d)).isSome = true := by
  by_cases hk : k = p
  · subst hk
    rw [dlookup_dinsert_self]
    rfl
  · rw [dlookup_dinsert_ne hk]
    exact h

theorem process_binding_lookup_ne {V : Type} {c : CmdInfo V}
    {acc d : List (String × SnapVal V)} {p : String}
    (hne : c.statusPath ≠ p) (h : process_binding c acc = .ok d) :
    dlookup p d = dlookup p acc := by
  unfold process_binding at h
  cases hr : c.raises with
  | some m => rw [hr] at h; cases h
  | none =>
    rw [hr] at h
    by_cases hs : c.hasStatus = false
    · rw [if_pos hs] at h
      cases h
      rfl
    · rw [if_neg hs] at h
      cases hrep : c.reply with
      | some v =>
        rw [hrep] at h
        cases h
        exact dlookup_dinsert_ne hne _ _
      | none =>
        rw [hrep] at h
        cases h
        exact dlookup_dinsert_ne hne _ _

theorem process_binding_preserves {V : Type} {c : CmdInfo V}
    {acc d : List (String × SnapVal V)} {p : String}
    (h : process_binding c acc = .ok d) (hp : (dlookup p acc).isSome = true) :
    (dlookup p d).isSome = true := by
  unfold process_binding at h
  cases hr : c.raises with
  | some m => rw [hr] at h; cases h
  | none =>
    rw [hr] at h
    by_cases hs : c.hasStatus = false
    · rw [if_pos hs] at h
      cases h
      exact hp
    · rw [if_neg hs] at h
      cases hrep : c.reply with
      | some v =>
        rw [hrep] at h
        cases h
        exact isSome_dlookup_dinsert _ _ _ _ hp
      | none =>
        rw [hrep] at h
        cases h
        exact isSome_dlookup_dinsert _ _ _ _ hp

theorem process_binding_present {V : Type} {c : CmdInfo V}
    {acc d : List (String × SnapVal V)}
    (hs : c.hasStatus = true) (h : process_binding c acc = .ok d) :
    (dlookup c.statusPath d).isSome = true := by
  unfold process_binding at h
  cases hr : c.raises with
  | some m => rw [hr] at h; cases h
  | none =>
    rw [hr, hs] at h
    simp only [Bool.true_eq_false, if_false] at h
    cases hrep : c.reply with
    | some v =>
      rw [hrep] at h
      cases h
      rw [dlookup_dinsert_self]
      rfl
    | none =>
      rw [hrep] at h
      cases h
      rw [dlookup_dinsert_self]
      rfl

theorem refresh_device_data_preserves {V : Type} (cmds : List (CmdInfo V)) :
    ∀ (acc : List (String × SnapVal V)) (p : String), (dlookup p acc).isSome = true →
      (dlookup p (refresh_device_data cmds acc)).isSome = true := by
  induction cmds with
  | nil => exact fun acc p h => h
  | cons c rest ih =>
    intro acc p h
    simp only [refresh_device_data]
    split
    · rename_i d hpb
      exact ih d p (process_binding_preserves hpb h)
    · exact ih _ p (isSome_dlookup_dinsert _ _ _ _ h)

theorem refresh_device_data_untouched {V : Type} (cmds : List (CmdInfo V)) :
    ∀ (acc : List (String × SnapVal V)) (p : String), (∀ x ∈ cmds, x.statusPath ≠ p) →
      dlookup p (refresh_device_data cmds acc) = dlookup p acc := by
  induction cmds with
  | nil => exact fun acc p _ => rfl
  | cons c rest ih =>
    intro acc p hne
    have hc : c.statusPath ≠ p := hne c (List.mem_cons_self c rest)
    have hrest : ∀ x ∈ rest, x.statusPath ≠ p :=
      fun x hx => hne x (List.mem_cons_of_mem c hx)
    simp only [refresh_device_data]
    split
    · rename_i d hpb
      rw [ih d p hrest]
      exact process_binding_lookup_ne hc hpb
    · rw [ih _ p hrest]
      exact dlookup_dinsert_ne hc _ _

theorem refresh_device_data_present {V : Type} (cmds : List (CmdInfo V)) :
    ∀ (acc : List (String × SnapVal V)), ∀ c ∈ cmds, c.hasStatus = true →
      (dlookup c.statusPath (refresh_device_data cmds acc)).isSome = true := by
  induction cmds with
  | nil => intro acc c hm; cases hm
  | cons c0 rest ih =>
    intro acc c hm hs
    rcases List.mem_cons.mp hm with rfl | hmem
    · simp only [refresh_device_data]
      split
      · rename_i d hpb
        exact refresh_device_data_preserves rest d c.statusPath
          (process_binding_present hs hpb)
      · refine refresh_device_data_preserves rest _ c.statusPath ?_
        rw [dlookup_dinsert_self]
        rfl
    · simp only [refresh_device_data]
      split
      · rename_i d hpb
        exact ih d c hmem hs
      · exact ih _ c hmem hs

theorem refresh_device_data_pynone {V : Type} (cmds : List (CmdInfo V)) :
    ∀ (acc : List (String × SnapVal V)), (cmds.map (fun x => x.statusPath)).Nodup →
      ∀ c ∈ cmds, c.hasStatus = true → (c.raises.isSome = true ∨ c.reply = none) →
      dlookup c.statusPath (refresh_device_data cmds acc) = some SnapVal.pynone := by
  induction cmds with
  | nil => intro acc _ c hm; cases hm
  | cons c0 rest ih =>
    intro acc hnd c hm hs hout
    simp only [List.map_cons, List.nodup_cons] at hnd
    rcases List.mem_cons.mp hm with rfl | hmem
    · have hrest : ∀ x ∈ rest, x.statusPath ≠ c.statusPath := by
        intro x hx hexp
        exact hnd.1 (hexp ▸ List.mem_map_of_mem (fun y => y.statusPath) hx)
      have hstep : refresh_device_data (c :: rest) acc
          = refresh_device_data rest (dinsert c.statusPath SnapVal.pynone acc) := by
        simp only [refresh_device_data]
        rcases hout with hraise | hrep
        · cases hr : c.raises with
          | none => rw [hr] at hraise; cases hraise
          | some m =>
            have hpb : process_binding c acc = .error m := by
              unfold process_binding
              rw [hr]
            rw [hpb]
        · cases hr : c.raises with
          | some m =>
            have hpb : process_binding c acc = .error m := by
              unfold process_binding
              rw [hr]
            rw [hpb]
          | none =>
            have hpb : process_binding c acc
                = .ok (dinsert c.statusPath SnapVal.pynone acc) := by
              unfold process_binding
              rw [hr, hs, hrep]
              simp
            rw [hpb]
      rw [hstep, refresh_device_data_untouched rest _ _ hrest]
      exact dlookup_dinsert_self _ _ _
    · simp only [refresh_device_data]
      split
      · rename_i d hpb
        exact ih d hnd.2 c hmem hs hout
      · exact ih _ hnd.2 c hmem hs hout

theorem refresh_heartbeat_data_untouched {V : Type} (now : Nat) (hbs : List (HBInfo V)) :
    ∀ (acc : List (String × SnapVal V)) (p : String), (∀ x ∈ hbs, x.statusPath ≠ p) →
      dlookup p (refresh_heartbeat_data now hbs acc) = dlookup p acc := by
  induction hbs with
  | nil => exact fun acc p _ => rfl
  | cons h0 rest ih =>
    intro acc p hne
    show dlookup p (refresh_heartbeat_data now rest _) = dlookup p acc
    rw [ih _ p (fun x hx => hne x (List.mem_cons_of_mem h0 hx))]
    exact dlookup_dinsert_ne (hne h0 (List.mem_cons_self h0 rest)) _ _

theorem dlookup_set_external_states {β : Type} [DecidableEq β] (d : List (String × β))
    (s : AggState β) (p : String) :
    dlookup p (set_external_states d s).external = dlookup p d := by
  unfold set_external_states
  split
  · rename_i h
    exact (dictBeq_lookup h p).symm
  · rfl

/-- C6: the bootstrap refresh issues every declared data-command binding
    and awaits its correlated status under the timeout: every binding with
    a status method ends with its status path present in the assembled
    snapshot, a binding whose wait timed out or whose processing raised
    ends with an explicit None stored at its path rather than an absent
    path, and the same explicit None is what the installed external states
    of refresh_all_data hold - the timeout is materialized as a stored
    value, never surfaced as an exception. -/
theorem C6_bootstrap_stores_explicit_none {V : Type} [DecidableEq V]
    (cmds : List (CmdInfo V)) (hbs : List (HBInfo V)) (now : Nat)
    (s : AggState (SnapVal V)) (acc : List (String × SnapVal V)) (c : CmdInfo V)
    (hmem : c ∈ cmds) (hstat : c.hasStatus = true) :
    (dlookup c.statusPath (refresh_device_data cmds acc)).isSome = true ∧
    ((cmds.map (fun x => x.statusPath)).Nodup →
      (c.raises.isSome = true ∨ c.reply = none) →
      dlookup c.statusPath (refresh_device_data cmds acc) = some SnapVal.pynone) ∧
    ((cmds.map (fun x => x.statusPath)).Nodup →
      (∀ x ∈ hbs, x.statusPath ≠ c.statusPath) →
      (c.raises.isSome = true ∨ c.reply = none) →
      dlookup c.statusPath (refresh_all_data now cmds hbs s).external
        = some SnapVal.pynone) := by
  refine ⟨refresh_device_data_present cmds acc c hmem hstat, ?_, ?_⟩
  · intro hnd hout
    exact refresh_device_data_pynone cmds acc hnd c hmem hstat hout
  · intro hnd hdisj hout
    have hlook : dlookup c.statusPath
        (refresh_heartbeat_data now hbs (refresh_device_data cmds []))
        = some SnapVal.pynone := by
      rw [refresh_heartbeat_data_untouched now hbs _ _ hdisj]
      exact refresh_device_data_pynone cmds [] hnd c hmem hstat hout
    have hne : (refresh_heartbeat_data now hbs (refresh_device_data cmds [])).isEmpty
        = false := by
      cases he : refresh_heartbeat_data now hbs (refresh_device_data cmds [])
      · rw [he] at hlook
        simp [dlookup] at hlook
      · rfl
    unfold refresh_all_data
    rw [hne]
    simp only [Bool.false_eq_true, if_false]
    rw [dlookup_set_external_states]
    exact hlook

/-- C6 witness: one binding whose status wait timed out; the bootstrap
    snapshot holds an explicit None at its path. -/
theorem C6_witness :
    dlookup "hvac.temp_sensor.temp_status"
      (refresh_all_data 0
        [⟨"hvac.temp_sensor.temp_status", true, (none : Option Nat), none⟩] []
        (⟨[], [], []⟩ : AggState (SnapVal Nat))).external
      = some SnapVal.pynone :=
  (C6_bootstrap_stores_explicit_none
      [⟨"hvac.temp_sensor.temp_status", true, (none : Option Nat), none⟩] [] 0
      (⟨[], [], []⟩ : AggState (SnapVal Nat)) []
      ⟨"hvac.temp_sensor.temp_status", true, none, none⟩
      (by simp) rfl).2.2 (by simp) (by simp) (Or.inr rfl)

/-! ## C7 -/

theorem nodup_keys_refresh_heartbeat_data {V : Type} (now : Nat) (hbs : List (HBInfo V)) :
    ∀ acc : List (String × SnapVal V), ((acc.map Prod.fst).Nodup) →
      (((refresh_heartbeat_data now hbs acc).map Prod.fst)).Nodup := by
  induction hbs with
  | nil => exact fun acc h => h
  | cons h0 rest ih => exact fun acc h => ih _ (nodup_keys_dinsert _ h)

theorem refresh_heartbeat_data_lookup {V : Type} (now : Nat) (hbs : List (HBInfo V)) :
    ∀ acc : List (String × SnapVal V), (hbs.map (fun x => x.statusPath)).Nodup →
      ∀ h ∈ hbs, dlookup h.statusPath (refresh_heartbeat_data now hbs acc)
        = some (refresh_single_heartbeat now h) := by
  induction hbs with
  | nil => intro acc _ h hm; cases hm
  | cons h0 rest ih =>
    intro acc hnd h hm
    simp only [List.map_cons, List.nodup_cons] at hnd
    rcases List.mem_cons.mp hm with rfl | hmem
    · show dlookup h.statusPath (refresh_heartbeat_data now rest _) = _
      rw [refresh_heartbeat_data_untouched now rest _ _ (by
        intro x hx hexp
        exact hnd.1 (hexp ▸ List.mem_map_of_mem (fun y => y.statusPath) hx))]
      exact dlookup_dinsert_self _ _ _
    · exact ih _ hnd.2 h hmem

/-- C7: within one monitor cycle a heartbeat target with no reply inside
    the timeout transitions to an explicit offline record (status tag
    offline, timestamped), to an error record when the probe itself failed,
    and back to the delivered payload on the next successful reply; and any
    message observed on the namespace's heartbeat response channel is
    handed to every registered callback, with no request/response id
    matching. -/
theorem C7_heartbeat_monitor {V : Type} [DecidableEq V] (now : Nat)
    (hbs : List (HBInfo V)) (h : HBInfo V) (s : AggState (SnapVal V))
    (ns topic : String) (nCb : Nat) (payload : V)
    (hnd : (hbs.map (fun x => x.statusPath)).Nodup) (hmem : h ∈ hbs) :
    (h.raises = none → h.reply = none →
      dlookup h.statusPath (refresh_periodic_heartbeats now hbs s).external
        = some (SnapVal.hbOffline now "timeout")) ∧
    (∀ m, h.raises = some m →
      dlookup h.statusPath (refresh_periodic_heartbeats now hbs s).external
        = some (SnapVal.hbError now m)) ∧
    (∀ v, h.raises = none → h.reply = some v →
      dlookup h.statusPath (refresh_periodic_heartbeats now hbs s).external
        = some (SnapVal.data v)) ∧
    (topic = ns ++ "/heartbeat/response" →
      handle_heartbeat_message ns topic nCb payload = List.replicate nCb payload) ∧
    (topic ≠ ns ++ "/heartbeat/response" →
      handle_heartbeat_message ns topic nCb payload = []) := by
  have hmain : dlookup h.statusPath (refresh_periodic_heartbeats now hbs s).external
      = some (refresh_single_heartbeat now h) := by
    have hl := refresh_heartbeat_data_lookup now hbs [] hnd h hmem
    have hne : (refresh_heartbeat_data now hbs []).isEmpty = false := by
      cases he : refresh_heartbeat_data now hbs []
      · rw [he] at hl
        simp [dlookup] at hl
      · rfl
    unfold refresh_periodic_heartbeats
    rw [hne]
    simp only [Bool.false_eq_true, if_false]
    rw [dlookup_set_external_states]
    exact dlookup_dmerge_of_some
      (nodup_keys_refresh_heartbeat_data now hbs [] (by simp)) hl s.external
  refine ⟨?_, ?_, ?_, ?_, ?_⟩
  · intro h1 h2
    rw [hmain]
    simp [refresh_single_heartbeat, execute_heartbeat_and_wait, h1, h2]
  · intro m h1
    rw [hmain]
    simp [refresh_single_heartbeat, h1]
  · intro v h1 h2
    rw [hmain]
    simp [refresh_single_heartbeat, execute_heartbeat_and_wait, h1, h2]
  · intro htop
    unfold handle_heartbeat_message
    rw [if_pos htop]
  · intro htop
    unfold handle_heartbeat_message
    rw [if_neg htop]

/-- C7 witness: one probed namespace with no reply; after the cycle its
    snapshot path holds the explicit offline record, and a reply payload on
    the response channel reaches both registered callbacks whatever its
    request id. -/
theorem C7_witness :
    dlookup "therm.heartbeat_status"
      (refresh_periodic_heartbeats 1700
        [⟨"therm.heartbeat_status", (none : Option Nat), none⟩]
        (⟨[], [], []⟩ : AggState (SnapVal Nat))).external
      = some (SnapVal.hbOffline 1700 "timeout") ∧
    handle_heartbeat_message "scrumpi" "scrumpi/heartbeat/response" 2 (5 : Nat)
      = [5, 5] := by
  constructor
  · exact (C7_heartbeat_monitor 1700
      [⟨"therm.heartbeat_status", (none : Option Nat), none⟩]
      ⟨"therm.heartbeat_status", none, none⟩
      (⟨[], [], []⟩ : AggState (SnapVal Nat)) "scrumpi" "scrumpi/heartbeat/response" 2 5
      (by simp) (by simp)).1 rfl rfl
  · exact (C7_heartbeat_monitor 1700
      [⟨"therm.heartbeat_status", (none : Option Nat), none⟩]
      ⟨"therm.heartbeat_status", none, none⟩
      (⟨[], [], []⟩ : AggState (SnapVal Nat)) "scrumpi" "scrumpi/heartbeat/response" 2 5
      (by simp) (by simp)).2.2.2.1 rfl

/-! ## C8 -/

theorem drain_commands_map_fst {V : Type} (env : LoopEnv V) (q : List (String × V)) :
    (drain_commands env q).map (fun t => (t.1, t.2.1)) = q := by
  induction q with
  | nil => rfl
  | cons cd rest ih =>
    obtain ⟨c, d⟩ := cd
    show ((c, d, process_command env c d) :: drain_commands env rest).map _ = _
    simp [ih]

theorem drain_commands_append {V : Type} (env : LoopEnv V) (q1 q2 : List (String × V)) :
    drain_commands env (q1 ++ q2) = drain_commands env q1 ++ drain_commands env q2 := by
  induction q1 with
  | nil => rfl
  | cons cd rest ih =>
    obtain ⟨c, d⟩ := cd
    show (c, d, process_command env c d) :: drain_commands env (rest ++ q2) = _
    rw [ih]
    rfl

theorem start_processing_single (n : Nat) :
    (start_processing^[n] ⟨false, 0⟩).consumerTasks ≤ 1 := by
  have hfix : ∀ m, start_processing^[m] ⟨true, 1⟩ = ⟨true, 1⟩ := by
    intro m
    induction m with
    | zero => rfl
    | succ m ih =>
      rw [Function.iterate_succ_apply]
      exact ih
  cases n with
  | zero => exact Nat.zero_le 1
  | succ n =>
    rw [Function.iterate_succ_apply]
    have h1 : start_processing ⟨false, 0⟩ = ⟨true, 1⟩ := rfl
    rw [h1, hfix n]

/-- C8: add_command appends to the ordered FIFO; start_processing never
    spawns a second consumer loop, so exactly one consumer drains the
    queue; the drain trace processes commands strictly in submission
    order; and a command whose handler fails (recorded False) is still
    followed by the processing of every subsequent command. -/
theorem C8_command_fifo {V : Type} (env : LoopEnv V) (q1 q2 : List (String × V))
    (c : String) (d : V) (s : ProcessorState V) (n : Nat) :
    (add_command c d s).commandQueue = s.commandQueue ++ [(c, d)] ∧
    (drain_commands env (q1 ++ q2)).map (fun t => (t.1, t.2.1)) = q1 ++ q2 ∧
    drain_commands env (q1 ++ (c, d) :: q2)
      = drain_commands env q1 ++ (c, d, process_command env c d) :: drain_commands env q2 ∧
    (start_processing^[n] ⟨false, 0⟩).consumerTasks ≤ 1 := by
  refine ⟨rfl, drain_commands_map_fst env _, ?_, start_processing_single n⟩
  rw [drain_commands_append]
  rfl

/-- C8 witness: a DIRECT command whose dispatcher raises is recorded failed
    and the following CONTROL command is still processed, in order. -/
theorem C8_witness :
    drain_commands
        (⟨fun _ => HandlerOutcome.raised "dispatch failed", fun _ => .ok,
          fun _ _ => .ok, fun _ => .ok⟩ : LoopEnv Nat)
        ([("DIRECT", 1)] ++ ("CONTROL", 2) :: [])
      = [("DIRECT", 1, false), ("CONTROL", 2, true)] := by
  rw [(C8_command_fifo
      (⟨fun _ => HandlerOutcome.raised "dispatch failed", fun _ => .ok,
        fun _ _ => .ok, fun _ => .ok⟩ : LoopEnv Nat)
      [("DIRECT", 1)] [] "CONTROL" 2 ⟨[]⟩ 0).2.2.1]
  rfl

end Therm
